import Mathlib

/-!
Shallow embedding of the WebDriver Bidi core client
(packages/webdriver/src/bidi/core.ts).

The class `BidiCore` is modelled as an explicit state record.  Asynchronous
behaviour is modelled by explicit event traces:

* inbound websocket messages and timer firings are events (`Ev`) processed by
  a step function (`BidiCore.step`), folding over a trace (`BidiCore.run`);
* the environment of `connect()` (the test-mode flag, DNS results, and the
  order in which candidate sockets report open/error) is passed in as data
  (`ConnectEnv`, `DnsEnv`, `RaceEv`);
* JSON parsing of an inbound message is external, so an inbound message is
  modelled as `Option Payload` (`none` = text that fails to parse);
* a promise that the code rejects is modelled with `Except`; a promise that
  always resolves is modelled by its resolved value.

Observables that the source expresses as side effects are recorded in the
state: frames written to the socket (`sentFrames`), emits on the attached
client (`clientEvents`), settled waiters (`settled`), warn/error log lines
(`warnLog`, `errorLog`) and sockets created while racing (`socketsCreated`).
Log texts are paraphrased without changing their information content.
-/

deriving instance DecidableEq for Except

/-- Parsed inbound message (`JSON.parse` result viewed as `CommandResponse`).
`id := none` models a record without an `id` member; the payload body is kept
opaque as a string. -/
structure Payload where
  id : Option Nat
  isError : Bool
  result : String
deriving DecidableEq

/-- How a pending waiter was settled: resolved by a matching response
(carrying that response), or rejected by its timeout. -/
inductive Outcome where
  | resolved (p : Payload)
  | timedOut
deriving DecidableEq

/-- Emits on the attached client: `bidiCommand` on every sent command,
`bidiResult` on every inbound message that carries an identifier. -/
inductive ClientEv where
  | bidiCommand (method : String)
  | bidiResult (p : Payload)
deriving DecidableEq

/-- State of one `BidiCore` instance.  The first six fields embed the class
fields `#id`, `#ws`, `#waitForConnected` (as the value the stored promise
resolves to), `#webSocketUrl`, `#pendingCommands` (as the list of registered
identifiers) and `_isConnected`.  The remaining fields record observables. -/
structure BidiCore where
  id : Nat := 0
  ws : Option String := none
  waitForConnected : Bool := false
  webSocketUrl : String
  pendingCommands : List Nat := []
  isConnected : Bool := false
  timers : List Nat := []
  sentFrames : List (Nat × String) := []
  settled : List (Nat × Outcome) := []
  clientEvents : List ClientEv := []
  warnLog : List String := []
  errorLog : List String := []
  socketsCreated : List String := []
deriving DecidableEq

/-- Constructor: `new BidiCore(webSocketUrl)`. -/
def BidiCore.init (url : String) : BidiCore := { webSocketUrl := url }

/-- Fixed response deadline, `RESPONSE_TIMEOUT = 1000 * 60` milliseconds. -/
def RESPONSE_TIMEOUT : Nat := 1000 * 60

/-- JavaScript truthiness of `payload.id`: the check `!payload.id` treats a
missing member and the number `0` as falsy. -/
def truthyId : Option Nat → Option Nat
  | none => none
  | some 0 => none
  | some (n + 1) => some (n + 1)

/-- JavaScript `String.prototype.replace` with a string pattern: replaces the
first occurrence only. -/
def jsReplace (s pat rep : String) : String :=
  match s.splitOn pat with
  | [] => s
  | [x] => x
  | x :: y :: rest => x ++ rep ++ String.intercalate pat (y :: rest)

/-- Inbound message handler `#handleResponse`.  Parse failure is logged and
absorbed; a falsy identifier returns at once (nothing is emitted for it); a
truthy identifier is emitted to the client as `bidiResult`, then matched
against the pending table: a hit removes the entry and invokes its callback
(which clears the timer and resolves the waiter with the payload), a miss is
logged and discarded. -/
def BidiCore.handleResponse (s : BidiCore) (data : Option Payload) : BidiCore :=
  match data with
  | none => { s with errorLog := s.errorLog ++ ["Failed parse message"] }
  | some payload =>
    match truthyId payload.id with
    | none => s
    | some i =>
      let s1 := { s with clientEvents := s.clientEvents ++ [ClientEv.bidiResult payload] }
      if i ∈ s1.pendingCommands then
        { s1 with
            pendingCommands := s1.pendingCommands.erase i
            timers := s1.timers.erase i
            settled := s1.settled ++ [(i, Outcome.resolved payload)] }
      else
        { s1 with errorLog := s1.errorLog ++ ["Failed to resolve command with id " ++ toString i] }

/-- The 60-second timer of command `i` fires.  The guard `i ∈ s.timers`
models that a cleared timer never fires; a live timer rejects the waiter and
deletes the pending entry. -/
def BidiCore.fireTimeout (s : BidiCore) (i : Nat) : BidiCore :=
  if i ∈ s.timers then
    { s with
        timers := s.timers.erase i
        pendingCommands := s.pendingCommands.erase i
        settled := s.settled ++ [(i, Outcome.timedOut)] }
  else s

/-- Events delivered to an instance while a command is in flight. -/
inductive Ev where
  | recv (data : Option Payload)
  | timeout (i : Nat)
deriving DecidableEq

/-- Process one event. -/
def BidiCore.step (s : BidiCore) : Ev → BidiCore
  | .recv d => s.handleResponse d
  | .timeout i => s.fireTimeout i

/-- Process a trace of events in order. -/
def BidiCore.run (s : BidiCore) (evs : List Ev) : BidiCore := evs.foldl BidiCore.step s

/-- Number of settlement records for identifier `i`. -/
def BidiCore.countSettled (s : BidiCore) (i : Nat) : Nat :=
  (s.settled.filter (fun e => e.1 == i)).length

/-- Method `sendAsync`: throws when there is no open socket or the instance
is not connected; otherwise increments the counter, emits `bidiCommand`,
writes the frame and returns the fresh identifier. -/
def BidiCore.sendAsync (s : BidiCore) (method : String) : Except String (Nat × BidiCore) :=
  if s.ws.isNone || !s.isConnected then
    .error "No connection to WebDriver Bidi was established"
  else
    let i := s.id + 1
    .ok (i, { s with
        id := i
        clientEvents := s.clientEvents ++ [ClientEv.bidiCommand method]
        sentFrames := s.sentFrames ++ [(i, method)] })

/-- Synchronous part of method `send`: `sendAsync`, then registration of the
response timer and of the pending-command callback for the fresh identifier.
The `await` of the returned promise is modelled by running an event trace
afterwards; the settlement is recorded in `settled`. -/
def BidiCore.send (s : BidiCore) (method : String) : Except String (Nat × BidiCore) :=
  match s.sendAsync method with
  | .error e => .error e
  | .ok (i, s1) =>
    .ok (i, { s1 with
        timers := s1.timers ++ [i]
        pendingCommands := s1.pendingCommands ++ [i] })

/-- Iterated `sendAsync`, returning the identifiers in send order. -/
def BidiCore.sendSeq (s : BidiCore) : List String → Except String (List Nat × BidiCore)
  | [] => .ok ([], s)
  | m :: ms =>
    match s.sendAsync m with
    | .error e => .error e
    | .ok (i, s1) =>
      match s1.sendSeq ms with
      | .error e => .error e
      | .ok (is, s2) => .ok (i :: is, s2)

/-- DNS view of the endpoint URL: host name, whether `isIP(hostname)` holds,
and the settlement of `dns.resolve4` / `dns.resolve6` for that host. -/
structure DnsEnv where
  hostname : String
  hostIsIP : Bool
  r4 : Except String (List String)
  r6 : Except String (List String)
deriving DecidableEq

/-- Method `#listWebsocketCandidateUrls`.  A literal-IP host returns the
literal URL alone.  Otherwise `Promise.all` of both resolutions: a rejection
of either family rejects the whole call (the model reports the IPv4 error
first when both fail).  With both resolved, more than one address appends one
host-substituted URL per address. -/
def listWebsocketCandidateUrls (url : String) (dns : DnsEnv) : Except String (List String) :=
  if dns.hostIsIP then .ok [url]
  else
    match dns.r4, dns.r6 with
    | .error e, _ => .error e
    | .ok _, .error e => .error e
    | .ok a4, .ok a6 =>
      let candidateIps := a4 ++ a6
      if candidateIps.length > 1 then
        .ok ([url] ++ candidateIps.map (fun ip => jsReplace url dns.hostname ip))
      else .ok [url]

/-- One candidate socket settles: its `open` event fires, or its `error`
event fires with a message. -/
inductive RaceEv where
  | opened (url : String)
  | failed (url : String) (msg : String)
deriving DecidableEq

/-- Warn-log line collected for a failed candidate (paraphrase of the source
log text, keeping the URL and the cause). -/
def raceErrMsg (url msg : String) : String :=
  "Failed to connect to Bidi protocol at " ++ url ++ ": " ++ msg

/-- One settlement during the race: the first `open` with no active socket
claims `#ws`; an `error` appends its message to the local error list. -/
def raceStep : BidiCore × List String → RaceEv → BidiCore × List String
  | (s, errs), .opened url =>
    (if s.ws.isNone then { s with ws := some url } else s, errs)
  | (s, errs), .failed url msg => (s, errs ++ [raceErrMsg url msg])

/-- First phase of method `#connectWebsocket`: one socket is created per
candidate, then the settlements in `evs` happen in order, yielding the
instance (with a possibly claimed `ws`) and the collected error messages. -/
def raceFoldState (s : BidiCore) (candidateUrls : List String) (evs : List RaceEv) :
    BidiCore × List String :=
  evs.foldl raceStep ({ s with socketsCreated := s.socketsCreated ++ candidateUrls }, [])

/-- Continuation of `#connectWebsocket` after the race settles: if some
socket was claimed the instance is connected (resolving `true`); otherwise
every collected error message is warn-logged and the instance stays
disconnected (resolving `false`).  The promise always resolves, never
rejects. -/
def connectWebsocket (s : BidiCore) (candidateUrls : List String) (evs : List RaceEv) :
    BidiCore × Bool :=
  if (raceFoldState s candidateUrls evs).1.ws.isSome then
    ({ (raceFoldState s candidateUrls evs).1 with isConnected := true }, true)
  else
    ({ (raceFoldState s candidateUrls evs).1 with
        warnLog := (raceFoldState s candidateUrls evs).1.warnLog
          ++ (raceFoldState s candidateUrls evs).2
        isConnected := false }, false)

/-- Environment of one `connect()` call: the `WDIO_UNIT_TESTS` flag, the DNS
view of the endpoint, and the socket settlements of the race. -/
structure ConnectEnv where
  unitTests : Bool
  dns : DnsEnv
  raceEvents : List RaceEv
deriving DecidableEq

/-- Method `connect()`.  Under the test-mode flag it only sets the connected
flag and returns `undefined` (modelled `none`), leaving the stored
wait-for-connected promise untouched.  Otherwise it lists candidates (a DNS
rejection propagates), races sockets, stores the race promise in
`#waitForConnected` and returns it (its resolved boolean, modelled
`some b`). -/
def BidiCore.connect (s : BidiCore) (env : ConnectEnv) :
    Except String (BidiCore × Option Bool) :=
  if env.unitTests then
    .ok ({ s with isConnected := true }, none)
  else
    match listWebsocketCandidateUrls s.webSocketUrl env.dns with
    | .error e => .error e
    | .ok candidateUrls =>
      let p := connectWebsocket s candidateUrls env.raceEvents
      .ok ({ p.1 with waitForConnected := p.2 }, some p.2)

/-- Method `close()`: no-op when disconnected; otherwise clears the
connected flag, detaches the handler and drops the socket. -/
def BidiCore.close (s : BidiCore) : BidiCore :=
  if !s.isConnected then s
  else { s with isConnected := false, ws := none }

/-- Method `reconnect(url, opts)`: `close()` then `connect()` against the
new endpoint. -/
def BidiCore.reconnect (s : BidiCore) (url : String) (env : ConnectEnv) :
    Except String (BidiCore × Option Bool) :=
  BidiCore.connect { s.close with webSocketUrl := url } env

/-- Characterisation of a successful `sendAsync` on a connected instance:
the fresh identifier is the incremented counter and the frame carrying it is
written to the channel. -/
theorem sendAsync_ok (s : BidiCore) (m : String)
    (hws : s.ws.isSome) (hc : s.isConnected = true) :
    s.sendAsync m = .ok (s.id + 1, { s with
      id := s.id + 1
      clientEvents := s.clientEvents ++ [ClientEv.bidiCommand m]
      sentFrames := s.sentFrames ++ [(s.id + 1, m)] }) := by
  cases hw : s.ws with
  | none => rw [hw] at hws; simp at hws
  | some w => simp [BidiCore.sendAsync, hw, hc]

/-- Iterated sends on a connected instance succeed and return consecutive
identifiers counting up from the counter value plus one. -/
theorem sendSeq_ids_general (ms : List String) : ∀ s : BidiCore,
    s.ws.isSome → s.isConnected = true →
    ∃ s2 : BidiCore, s.sendSeq ms = .ok (List.range' (s.id + 1) ms.length, s2) ∧
      s2.id = s.id + ms.length ∧ s2.ws = s.ws ∧ s2.isConnected = true := by
  induction ms with
  | nil =>
    intro s hws hc
    exact ⟨s, rfl, by simp, rfl, hc⟩
  | cons m ms ih =>
    intro s hws hc
    obtain ⟨s2, hseq, hid, hwseq, hcon⟩ := ih { s with
        id := s.id + 1
        clientEvents := s.clientEvents ++ [ClientEv.bidiCommand m]
        sentFrames := s.sentFrames ++ [(s.id + 1, m)] } hws hc
    refine ⟨s2, ?_, ?_, hwseq, hcon⟩
    · simp [BidiCore.sendSeq, sendAsync_ok s m hws hc, hseq, List.range'_succ]
    · rw [hid]; simp; omega

/-- C6: identifier allocation starts at 1 and never reuses a value within
one channel generation: on a connected instance with a fresh counter,
sending the command list `ms` succeeds and yields exactly the identifiers
`1, 2, ..., ms.length` in send order (`List.range' 1 ms.length`), which are
pairwise strictly increasing and hence distinct. -/
theorem C6_identifiers_sequential (s : BidiCore) (ms : List String)
    (hws : s.ws.isSome) (hc : s.isConnected = true) (h0 : s.id = 0) :
    ∃ s2, s.sendSeq ms = .ok (List.range' 1 ms.length, s2) ∧
      List.Pairwise (· < ·) (List.range' 1 ms.length) ∧
      (List.range' 1 ms.length).Nodup := by
  obtain ⟨s2, hseq, -, -, -⟩ := sendSeq_ids_general ms s hws hc
  rw [h0] at hseq
  exact ⟨s2, hseq, List.pairwise_lt_range' 1 ms.length, List.nodup_range' 1 ms.length⟩

/-- Concrete connected instance used by several witnesses. -/
def connState : BidiCore :=
  { webSocketUrl := "ws://u", ws := some "ws://u", isConnected := true }

/-- Witness for C6: three commands on a fresh connected instance receive the
identifiers 1, 2, 3. -/
theorem C6_witness :
    (connState.ws.isSome ∧ connState.isConnected = true ∧ connState.id = 0) ∧
    ∃ s2, connState.sendSeq ["session.status", "session.new", "browsingContext.create"]
        = .ok (List.range' 1 3, s2) ∧
      List.Pairwise (· < ·) (List.range' 1 3) ∧ (List.range' 1 3).Nodup :=
  ⟨⟨rfl, rfl, rfl⟩,
    C6_identifiers_sequential connState ["session.status", "session.new", "browsingContext.create"]
      rfl rfl rfl⟩

/-- Not-connected error text thrown by `sendAsync`. -/
def noConnectionError : String := "No connection to WebDriver Bidi was established"

/-- C7: a send attempt with no open socket or while disconnected fails
synchronously with the not-connected error: both `sendAsync` and `send`
return that error, so no identifier is allocated, no frame is written to any
channel and no waiter or timer is registered. -/
theorem C7_send_without_connection_fails (s : BidiCore) (m : String)
    (h : s.ws = none ∨ s.isConnected = false) :
    s.sendAsync m = .error noConnectionError ∧ s.send m = .error noConnectionError := by
  have hc : (s.ws.isNone || !s.isConnected) = true := by
    rcases h with h | h
    · simp [h]
    · simp [h]
  refine ⟨?_, ?_⟩
  · simp [BidiCore.sendAsync, hc, noConnectionError]
  · simp [BidiCore.send, BidiCore.sendAsync, hc, noConnectionError]

/-- Witness for C7 at a freshly constructed, never-connected instance. -/
theorem C7_witness :
    ((BidiCore.init "ws://u").ws = none ∨ (BidiCore.init "ws://u").isConnected = false) ∧
    ((BidiCore.init "ws://u").sendAsync "browsingContext.create" = .error noConnectionError ∧
      (BidiCore.init "ws://u").send "browsingContext.create" = .error noConnectionError) :=
  ⟨Or.inl rfl, C7_send_without_connection_fails (BidiCore.init "ws://u")
    "browsingContext.create" (Or.inl rfl)⟩

/-- C8: an inbound message whose text does not parse is logged and
discarded: the handler returns normally, leaving the pending-command table,
the timers, the settlements and the client emits unchanged, and appending
only a parse-failure line to the error log. -/
theorem C8_malformed_message_absorbed (s : BidiCore) :
    (s.handleResponse none).pendingCommands = s.pendingCommands ∧
    (s.handleResponse none).timers = s.timers ∧
    (s.handleResponse none).settled = s.settled ∧
    (s.handleResponse none).clientEvents = s.clientEvents ∧
    (s.handleResponse none).errorLog = s.errorLog ++ ["Failed parse message"] := by
  refine ⟨rfl, rfl, rfl, rfl, rfl⟩

/-- Concrete parsed message without identifier (an unsolicited event). -/
def c4payload : Payload := { id := none, isError := false, result := "log.entryAdded" }

/-- Concrete connected instance with one pending command and an attached
client that has received no emit yet. -/
def c4state : BidiCore :=
  { webSocketUrl := "ws://u", ws := some "ws://u", isConnected := true,
    id := 1, pendingCommands := [1], timers := [1] }

/-- C4 counterexample: on a parsed message with no identifier the handler
returns the state completely unchanged — in particular nothing is forwarded
to the attached client (its emit list stays empty), contradicting the claim
that such messages are forwarded as protocol events before returning. -/
theorem C4_counterexample :
    c4state.handleResponse (some c4payload) = c4state ∧ c4state.clientEvents = [] :=
  ⟨rfl, rfl⟩

/-- C4 (amended): a parsed inbound message whose identifier is falsy is
silently ignored: the handler returns with the state unchanged — it is not
treated as a Response, the pending-waiter table is untouched, and nothing is
forwarded to the attached client. -/
theorem C4_idless_message_ignored (s : BidiCore) (p : Payload)
    (h : truthyId p.id = none) :
    s.handleResponse (some p) = s := by
  simp [BidiCore.handleResponse, h]

/-- Witness for the amended C4 at a concrete event message. -/
theorem C4_witness :
    truthyId c4payload.id = none ∧ c4state.handleResponse (some c4payload) = c4state :=
  ⟨rfl, C4_idless_message_ignored c4state c4payload rfl⟩

/-- C9: under the test-mode flag, `connect()` only sets the connected flag:
no socket is created, no channel is opened, and the stored
wait-for-connected value is not replaced, so on a fresh instance
`waitForConnected` still resolves to the initial `false`. -/
theorem C9_test_mode_connect (url : String) (env : ConnectEnv)
    (h : env.unitTests = true) :
    (BidiCore.init url).connect env
      = .ok ({ BidiCore.init url with isConnected := true }, none) ∧
    ({ BidiCore.init url with isConnected := true }).waitForConnected = false ∧
    ({ BidiCore.init url with isConnected := true }).ws = none ∧
    ({ BidiCore.init url with isConnected := true }).socketsCreated = [] := by
  refine ⟨?_, rfl, rfl, rfl⟩
  simp [BidiCore.connect, h]

/-- Concrete test-mode environment. -/
def c9env : ConnectEnv :=
  { unitTests := true,
    dns := { hostname := "example.test", hostIsIP := false,
             r4 := .ok [], r6 := .ok [] },
    raceEvents := [] }

/-- Witness for C9 at a fresh instance under the test-mode flag. -/
theorem C9_witness :
    c9env.unitTests = true ∧
    ((BidiCore.init "ws://u").connect c9env
        = .ok ({ BidiCore.init "ws://u" with isConnected := true }, none) ∧
      ({ BidiCore.init "ws://u" with isConnected := true }).waitForConnected = false ∧
      ({ BidiCore.init "ws://u" with isConnected := true }).ws = none ∧
      ({ BidiCore.init "ws://u" with isConnected := true }).socketsCreated = []) :=
  ⟨rfl, C9_test_mode_connect "ws://u" c9env rfl⟩

/-- Warn-log line contributed by one race settlement, if any. -/
def raceMsgOf : RaceEv → Option String
  | .opened _ => none
  | .failed url msg => some (raceErrMsg url msg)

/-- Folding the race over failure-only settlements leaves the instance
untouched and collects exactly the per-candidate error messages. -/
theorem raceFold_all_failed (evs : List RaceEv) :
    ∀ (s : BidiCore) (errs : List String),
    (∀ e ∈ evs, ∃ c msg, e = RaceEv.failed c msg) →
    evs.foldl raceStep (s, errs) = (s, errs ++ evs.filterMap raceMsgOf) := by
  induction evs with
  | nil => intro s errs _; simp
  | cons e evs ih =>
    intro s errs h
    obtain ⟨c, msg, rfl⟩ := h e (by simp)
    have hrest : ∀ e ∈ evs, ∃ c msg, e = RaceEv.failed c msg :=
      fun e he => h e (by simp [he])
    simp [raceStep, ih s (errs ++ [raceErrMsg c msg]) hrest, raceMsgOf]

/-- C2 (amended): when every candidate settles with a failure before any
opens, `connect` does not surface an aggregated error to the caller: the
race resolves `false`, the instance stays disconnected, and each candidate
failure cause is appended to the warn log (so for K candidates all K causes
appear in the log, not in a raised error). -/
theorem C2_all_fail_resolves_false (s : BidiCore) (cands : List String) (evs : List RaceEv)
    (hws : s.ws = none)
    (hfail : ∀ e ∈ evs, ∃ c msg, e = RaceEv.failed c msg) :
    (connectWebsocket s cands evs).2 = false ∧
    (connectWebsocket s cands evs).1.isConnected = false ∧
    ∀ c msg, RaceEv.failed c msg ∈ evs →
      raceErrMsg c msg ∈ (connectWebsocket s cands evs).1.warnLog := by
  have hfold : raceFoldState s cands evs
      = ({ s with socketsCreated := s.socketsCreated ++ cands }, evs.filterMap raceMsgOf) := by
    simpa [raceFoldState] using
      raceFold_all_failed evs { s with socketsCreated := s.socketsCreated ++ cands } [] hfail
  unfold connectWebsocket
  rw [hfold]
  simp [hws]
  intro c msg hmem
  right
  exact ⟨RaceEv.failed c msg, hmem, rfl⟩

/-- Concrete never-connected instance whose endpoint resolves to two IPv4
addresses, giving three candidates. -/
def c2state : BidiCore := BidiCore.init "ws://example.test:9222/session"

/-- Environment in which every candidate socket reports a connection
failure. -/
def c2env : ConnectEnv :=
  { unitTests := false
    dns := { hostname := "example.test", hostIsIP := false,
             r4 := .ok ["10.0.0.1", "10.0.0.2"], r6 := .ok [] }
    raceEvents :=
      [RaceEv.failed "ws://example.test:9222/session" "connect ECONNREFUSED",
       RaceEv.failed "ws://10.0.0.1:9222/session" "connect ECONNREFUSED",
       RaceEv.failed "ws://10.0.0.2:9222/session" "connect ECONNREFUSED"] }

/-- C2 counterexample: with all three candidates failing, `connect()` does
not fail with an aggregated error carrying the causes — it returns normally
and the stored promise resolves `false`; the three causes end up only in the
warn log, not in anything delivered to the caller. -/
theorem C2_counterexample :
    Except.map (fun r => (r.2, r.1.isConnected, r.1.warnLog)) (c2state.connect c2env)
      = .ok (some false, false,
          [raceErrMsg "ws://example.test:9222/session" "connect ECONNREFUSED",
           raceErrMsg "ws://10.0.0.1:9222/session" "connect ECONNREFUSED",
           raceErrMsg "ws://10.0.0.2:9222/session" "connect ECONNREFUSED"]) := by
  rfl

/-- Witness for the amended C2 at two concrete failing candidates. -/
theorem C2_witness :
    c2state.ws = none ∧
    (∀ e ∈ [RaceEv.failed "u1" "m1", RaceEv.failed "u2" "m2"],
      ∃ c msg, e = RaceEv.failed c msg) ∧
    ((connectWebsocket c2state ["u1", "u2"]
        [RaceEv.failed "u1" "m1", RaceEv.failed "u2" "m2"]).2 = false ∧
      (connectWebsocket c2state ["u1", "u2"]
        [RaceEv.failed "u1" "m1", RaceEv.failed "u2" "m2"]).1.isConnected = false ∧
      ∀ c msg, RaceEv.failed c msg ∈ [RaceEv.failed "u1" "m1", RaceEv.failed "u2" "m2"] →
        raceErrMsg c msg ∈ (connectWebsocket c2state ["u1", "u2"]
          [RaceEv.failed "u1" "m1", RaceEv.failed "u2" "m2"]).1.warnLog) := by
  have hfail : ∀ e ∈ [RaceEv.failed "u1" "m1", RaceEv.failed "u2" "m2"],
      ∃ c msg, e = RaceEv.failed c msg := by
    intro e he
    simp at he
    rcases he with rfl | rfl
    · exact ⟨"u1", "m1", rfl⟩
    · exact ⟨"u2", "m2", rfl⟩
  exact ⟨rfl, hfail, C2_all_fail_resolves_false c2state ["u1", "u2"]
    [RaceEv.failed "u1" "m1", RaceEv.failed "u2" "m2"] rfl hfail⟩

/-- One race settlement preserves the instance fields other than `ws`, and
preserves `ws` too once some socket is active. -/
theorem raceStep_preserves (p : BidiCore × List String) (e : RaceEv) :
    (raceStep p e).1.socketsCreated = p.1.socketsCreated ∧
    (raceStep p e).1.id = p.1.id ∧
    (raceStep p e).1.sentFrames = p.1.sentFrames ∧
    (p.1.ws.isSome → (raceStep p e).1.ws = p.1.ws) ∧
    (raceStep p e).1.isConnected = p.1.isConnected := by
  rcases p with ⟨s, errs⟩
  cases e with
  | failed url msg => exact ⟨rfl, rfl, rfl, fun _ => rfl, rfl⟩
  | opened url =>
    cases hw : s.ws with
    | none => simp [raceStep, hw]
    | some w => simp [raceStep, hw]

/-- Fold version of `raceStep_preserves`. -/
theorem raceFold_preserves (evs : List RaceEv) : ∀ p : BidiCore × List String,
    (evs.foldl raceStep p).1.socketsCreated = p.1.socketsCreated ∧
    (evs.foldl raceStep p).1.id = p.1.id ∧
    (evs.foldl raceStep p).1.sentFrames = p.1.sentFrames ∧
    (p.1.ws.isSome → (evs.foldl raceStep p).1.ws = p.1.ws) ∧
    (evs.foldl raceStep p).1.isConnected = p.1.isConnected := by
  induction evs with
  | nil => intro p; exact ⟨rfl, rfl, rfl, fun _ => rfl, rfl⟩
  | cons e evs ih =>
    intro p
    obtain ⟨h1, h2, h3, h4, h5⟩ := raceStep_preserves p e
    obtain ⟨g1, g2, g3, g4, g5⟩ := ih (raceStep p e)
    refine ⟨g1.trans h1, g2.trans h2, g3.trans h3, ?_, g5.trans h5⟩
    intro hws
    have h4x := h4 hws
    have hsome : (raceStep p e).1.ws.isSome := by rw [h4x]; exact hws
    exact (g4 hsome).trans h4x

/-- With an already-active socket, racing any further candidates keeps that
socket, reports success, and records the newly created sockets. -/
theorem connectWebsocket_connected (s : BidiCore) (cands : List String) (evs : List RaceEv)
    (w : String) (hws : s.ws = some w) :
    (connectWebsocket s cands evs).2 = true ∧
    (connectWebsocket s cands evs).1.ws = some w ∧
    (connectWebsocket s cands evs).1.isConnected = true ∧
    (connectWebsocket s cands evs).1.socketsCreated = s.socketsCreated ++ cands := by
  obtain ⟨h1, h2, h3, h4, h5⟩ := raceFold_preserves evs
    ({ s with socketsCreated := s.socketsCreated ++ cands }, [])
  have hw0 : ({ s with socketsCreated := s.socketsCreated ++ cands } : BidiCore).ws = some w :=
    hws
  have hwp : (raceFoldState s cands evs).1.ws = some w := by
    simpa [raceFoldState] using (h4 (by simp [hws])).trans hw0
  have hsc : (raceFoldState s cands evs).1.socketsCreated = s.socketsCreated ++ cands := by
    simpa [raceFoldState] using h1
  unfold connectWebsocket
  rw [hwp]
  simp
  exact ⟨hwp, hsc⟩

/-- C5 (amended): `connect()` performs no already-connected check apart from
the test-mode flag: called on a connected instance it resolves candidates
and races channels again — new sockets are created and the stored
wait-for-connected promise is replaced — while the active socket and the
connected flag survive only because the first-winner guard leaves a set `ws`
alone. -/
theorem C5_connect_reraces (s : BidiCore) (env : ConnectEnv) (w : String)
    (hconn : s.isConnected = true) (hws : s.ws = some w)
    (hut : env.unitTests = false) (hip : env.dns.hostIsIP = true) :
    s.connect env = .ok ({ (connectWebsocket s [s.webSocketUrl] env.raceEvents).1 with
        waitForConnected := true }, some true) ∧
    ({ (connectWebsocket s [s.webSocketUrl] env.raceEvents).1 with
        waitForConnected := true } : BidiCore).socketsCreated
      = s.socketsCreated ++ [s.webSocketUrl] ∧
    ({ (connectWebsocket s [s.webSocketUrl] env.raceEvents).1 with
        waitForConnected := true } : BidiCore).ws = some w ∧
    ({ (connectWebsocket s [s.webSocketUrl] env.raceEvents).1 with
        waitForConnected := true } : BidiCore).isConnected = true := by
  have hlist : listWebsocketCandidateUrls s.webSocketUrl env.dns = .ok [s.webSocketUrl] := by
    simp [listWebsocketCandidateUrls, hip]
  obtain ⟨hb, hwp, hic, hsc⟩ := connectWebsocket_connected s [s.webSocketUrl] env.raceEvents w hws
  refine ⟨?_, hsc, hwp, hic⟩
  simp [BidiCore.connect, hut, hlist, hb]

/-- Concrete instance that is already connected. -/
def c5state : BidiCore :=
  { webSocketUrl := "ws://10.0.0.9:9222/session", ws := some "ws://10.0.0.9:9222/session",
    isConnected := true, waitForConnected := true, id := 5 }

/-- Environment of a second `connect()` call on `c5state`. -/
def c5env : ConnectEnv :=
  { unitTests := false
    dns := { hostname := "10.0.0.9", hostIsIP := true, r4 := .ok [], r6 := .ok [] }
    raceEvents := [] }

/-- C5 counterexample: calling `connect()` on an already-connected instance
does not short-circuit — it resolves candidates and races a new channel, so
a new socket is created (the claim requires that no candidate resolution and
no racing happen, which would leave `socketsCreated` empty). -/
theorem C5_counterexample :
    Except.map (fun r => r.1.socketsCreated) (c5state.connect c5env)
      = .ok ["ws://10.0.0.9:9222/session"] := by
  rfl

/-- Witness for the amended C5 at a concrete connected instance. -/
theorem C5_witness :
    (c5state.isConnected = true ∧ c5state.ws = some "ws://10.0.0.9:9222/session" ∧
      c5env.unitTests = false ∧ c5env.dns.hostIsIP = true) ∧
    (c5state.connect c5env
        = .ok ({ (connectWebsocket c5state [c5state.webSocketUrl] c5env.raceEvents).1 with
            waitForConnected := true }, some true) ∧
      ({ (connectWebsocket c5state [c5state.webSocketUrl] c5env.raceEvents).1 with
          waitForConnected := true } : BidiCore).socketsCreated
        = c5state.socketsCreated ++ [c5state.webSocketUrl] ∧
      ({ (connectWebsocket c5state [c5state.webSocketUrl] c5env.raceEvents).1 with
          waitForConnected := true } : BidiCore).ws = some "ws://10.0.0.9:9222/session" ∧
      ({ (connectWebsocket c5state [c5state.webSocketUrl] c5env.raceEvents).1 with
          waitForConnected := true } : BidiCore).isConnected = true) :=
  ⟨⟨rfl, rfl, rfl, rfl⟩,
    C5_connect_reraces c5state c5env "ws://10.0.0.9:9222/session" rfl rfl rfl rfl⟩

/-- Concrete DNS view: IPv4 resolves, IPv6 rejects (a host without AAAA
records rejects with ENODATA). -/
def c3dns : DnsEnv :=
  { hostname := "example.test", hostIsIP := false,
    r4 := .ok ["10.0.0.1"], r6 := .error "queryAaaa ENODATA example.test" }

/-- C3 counterexample: with IPv4 resolving successfully and IPv6 rejecting,
candidate-list construction rejects with the IPv6 error — contradicting the
claim that one failed family is tolerated when the other resolves, and that
a failure surfaces as the fallback list with the literal URL. -/
theorem C3_counterexample :
    listWebsocketCandidateUrls "ws://example.test:9222/session" c3dns
      = .error "queryAaaa ENODATA example.test" := rfl

/-- C3 (amended): when the host is not a literal IP, a rejection of either
address family rejects the whole candidate construction with that error, and
the error propagates to the caller of `connect()`; there is no literal-URL
fallback on resolution failure. -/
theorem C3_family_failure_propagates (url : String) (dns : DnsEnv) (e : String)
    (hip : dns.hostIsIP = false)
    (h : dns.r4 = .error e ∨ ∃ a, dns.r4 = .ok a ∧ dns.r6 = .error e) :
    listWebsocketCandidateUrls url dns = .error e ∧
    ∀ env : ConnectEnv, env.unitTests = false → env.dns = dns →
      (BidiCore.init url).connect env = .error e := by
  have hmain : listWebsocketCandidateUrls url dns = .error e := by
    rcases h with h4 | ⟨a, h4, h6⟩
    · simp [listWebsocketCandidateUrls, hip, h4]
    · simp [listWebsocketCandidateUrls, hip, h4, h6]
  refine ⟨hmain, ?_⟩
  intro env hu hd
  simp [BidiCore.connect, hu, hd, BidiCore.init, hmain]

/-- Witness for the amended C3 at a concrete one-family DNS failure. -/
theorem C3_witness :
    c3dns.hostIsIP = false ∧
    (c3dns.r4 = .error "queryAaaa ENODATA example.test" ∨
      ∃ a, c3dns.r4 = .ok a ∧ c3dns.r6 = .error "queryAaaa ENODATA example.test") ∧
    (listWebsocketCandidateUrls "ws://example.test:9222/session" c3dns
        = .error "queryAaaa ENODATA example.test" ∧
      ∀ env : ConnectEnv, env.unitTests = false → env.dns = c3dns →
        (BidiCore.init "ws://example.test:9222/session").connect env
          = .error "queryAaaa ENODATA example.test") :=
  ⟨rfl, Or.inr ⟨["10.0.0.1"], rfl, rfl⟩,
    C3_family_failure_propagates "ws://example.test:9222/session" c3dns
      "queryAaaa ENODATA example.test" rfl (Or.inr ⟨["10.0.0.1"], rfl, rfl⟩)⟩

/-- Closing never touches the identifier counter. -/
theorem close_id (s : BidiCore) : s.close.id = s.id := by
  unfold BidiCore.close
  by_cases h : s.isConnected = true <;> simp [h]

/-- Connecting never touches the identifier counter. -/
theorem connect_id (s : BidiCore) (env : ConnectEnv) (s1 : BidiCore) (b : Option Bool)
    (h : s.connect env = .ok (s1, b)) : s1.id = s.id := by
  unfold BidiCore.connect at h
  by_cases hu : env.unitTests = true
  · rw [hu] at h
    simp at h
    rw [← h.1]
  · simp only [Bool.not_eq_true] at hu
    rw [hu] at h
    simp at h
    cases hl : listWebsocketCandidateUrls s.webSocketUrl env.dns with
    | error e => rw [hl] at h; simp at h
    | ok cands =>
      rw [hl] at h
      simp at h
      obtain ⟨g1, g2, g3, g4, g5⟩ := raceFold_preserves env.raceEvents
        ({ s with socketsCreated := s.socketsCreated ++ cands }, [])
      have hid : (raceFoldState s cands env.raceEvents).1.id = s.id := by
        simpa [raceFoldState] using g2
      rw [← h.1]
      unfold connectWebsocket
      by_cases hw : (raceFoldState s cands env.raceEvents).1.ws.isSome = true
      · simp [hw, hid]
      · simp only [Bool.not_eq_true] at hw
        simp [hw, hid]

/-- Inversion of a successful `sendAsync`: the returned identifier is the
incremented counter. -/
theorem sendAsync_id (s : BidiCore) (m : String) (j : Nat) (s2 : BidiCore)
    (h : s.sendAsync m = .ok (j, s2)) : j = s.id + 1 := by
  unfold BidiCore.sendAsync at h
  by_cases hc : (s.ws.isNone || !s.isConnected) = true
  · rw [if_pos hc] at h
    simp at h
  · rw [if_neg hc] at h
    simp at h
    exact h.1.symm

/-- C10: neither `close()` nor `reconnect()` resets the identifier counter:
after a successful reconnect the counter still equals its prior value, and
the next command is assigned that value plus one — strictly greater than
every identifier written to a frame before the reconnect. -/
theorem C10_ids_increase_across_reconnect (s s1 s2 : BidiCore) (url m : String)
    (env : ConnectEnv) (b : Option Bool) (j : Nat)
    (hframes : ∀ p ∈ s.sentFrames, p.1 ≤ s.id)
    (hre : s.reconnect url env = .ok (s1, b))
    (hsend : s1.sendAsync m = .ok (j, s2)) :
    s.close.id = s.id ∧ s1.id = s.id ∧ j = s.id + 1 ∧
    ∀ p ∈ s.sentFrames, p.1 < j := by
  have hclose := close_id s
  have h1 : s1.id = s.id := by
    have hc := connect_id { s.close with webSocketUrl := url } env s1 b hre
    exact hc.trans hclose
  have hj : j = s.id + 1 := by
    rw [sendAsync_id s1 m j s2 hsend, h1]
  refine ⟨hclose, h1, hj, ?_⟩
  intro p hp
  have := hframes p hp
  omega

/-- Concrete connected instance with one already-sent command. -/
def c10s : BidiCore :=
  { webSocketUrl := "ws://a", id := 1, ws := some "ws://a", isConnected := true,
    waitForConnected := true, sentFrames := [(1, "session.subscribe")] }

/-- Environment of the reconnect in the C10 witness: one candidate that
opens. -/
def c10env : ConnectEnv :=
  { unitTests := false
    dns := { hostname := "10.0.0.7", hostIsIP := true, r4 := .ok [], r6 := .ok [] }
    raceEvents := [RaceEv.opened "ws://b"] }

/-- State after the reconnect in the C10 witness. -/
def c10s1 : BidiCore :=
  { webSocketUrl := "ws://b", id := 1, ws := some "ws://b", isConnected := true,
    waitForConnected := true, sentFrames := [(1, "session.subscribe")],
    socketsCreated := ["ws://b"] }

/-- State after the post-reconnect send in the C10 witness. -/
def c10s2 : BidiCore :=
  { c10s1 with
      id := 2
      clientEvents := [ClientEv.bidiCommand "script.evaluate"]
      sentFrames := [(1, "session.subscribe"), (2, "script.evaluate")] }

/-- Witness for C10: a command sent after a reconnect receives identifier 2,
greater than the pre-reconnect identifier 1. -/
theorem C10_witness :
    (∀ p ∈ c10s.sentFrames, p.1 ≤ c10s.id) ∧
    c10s.reconnect "ws://b" c10env = .ok (c10s1, some true) ∧
    c10s1.sendAsync "script.evaluate" = .ok (2, c10s2) ∧
    (c10s.close.id = c10s.id ∧ c10s1.id = c10s.id ∧ 2 = c10s.id + 1 ∧
      ∀ p ∈ c10s.sentFrames, p.1 < 2) :=
  ⟨by decide, rfl, rfl,
    C10_ids_increase_across_reconnect c10s c10s1 c10s2 "ws://b" "script.evaluate"
      c10env (some true) 2 (by decide) rfl rfl⟩

/-- Table sanity: no identifier occurs twice in the pending table or among
the live timers. -/
def GoodTables (s : BidiCore) : Prop := s.pendingCommands.Nodup ∧ s.timers.Nodup

/-- Per-command settlement invariant for identifier `i`: settled at most
once; while unsettled its waiter and its timer are both registered; once
settled both are gone. -/
def WaiterInv (s : BidiCore) (i : Nat) : Prop :=
  s.countSettled i ≤ 1 ∧
  (s.countSettled i = 0 → i ∈ s.pendingCommands ∧ i ∈ s.timers) ∧
  (s.countSettled i = 1 → i ∉ s.pendingCommands ∧ i ∉ s.timers)

/-- Events that settle command `i`: a parseable response whose truthy
identifier is `i`, or the firing of the timer of `i`. -/
def IsSettler (i : Nat) : Ev → Prop
  | .recv none => False
  | .recv (some p) => truthyId p.id = some i
  | .timeout j => j = i

/-- Appending settlements never lowers a settlement count. -/
theorem countSettled_le_of_append (s t : BidiCore) (l : List (Nat × Outcome))
    (hs : t.settled = s.settled ++ l) (i : Nat) :
    s.countSettled i ≤ t.countSettled i := by
  simp only [BidiCore.countSettled, hs, List.filter_append, List.length_append]
  omega

/-- The handler either leaves the three tables unchanged, or settles some
pending identifier `j` carried by the message: it erases `j` from the
pending table and the timers and appends its resolution. -/
theorem handleResponse_shape (s : BidiCore) (d : Option Payload) :
    ((s.handleResponse d).pendingCommands = s.pendingCommands ∧
     (s.handleResponse d).timers = s.timers ∧
     (s.handleResponse d).settled = s.settled) ∨
    (∃ j p, d = some p ∧ truthyId p.id = some j ∧ j ∈ s.pendingCommands ∧
      (s.handleResponse d).pendingCommands = s.pendingCommands.erase j ∧
      (s.handleResponse d).timers = s.timers.erase j ∧
      (s.handleResponse d).settled = s.settled ++ [(j, Outcome.resolved p)]) := by
  cases d with
  | none => exact Or.inl ⟨rfl, rfl, rfl⟩
  | some p =>
    cases hid : truthyId p.id with
    | none =>
      left
      simp [BidiCore.handleResponse, hid]
    | some j =>
      by_cases hmem : j ∈ s.pendingCommands
      · right
        refine ⟨j, p, rfl, hid, hmem, ?_, ?_, ?_⟩ <;>
          simp only [BidiCore.handleResponse, hid, hmem, if_true]
      · left
        refine ⟨?_, ?_, ?_⟩ <;>
          simp only [BidiCore.handleResponse, hid, hmem, if_false]

/-- The timer event either leaves the three tables unchanged (cleared
timer), or settles `j`: erases it from both tables and appends its
timeout. -/
theorem fireTimeout_shape (s : BidiCore) (j : Nat) :
    ((s.fireTimeout j).pendingCommands = s.pendingCommands ∧
     (s.fireTimeout j).timers = s.timers ∧
     (s.fireTimeout j).settled = s.settled) ∨
    (j ∈ s.timers ∧
      (s.fireTimeout j).pendingCommands = s.pendingCommands.erase j ∧
      (s.fireTimeout j).timers = s.timers.erase j ∧
      (s.fireTimeout j).settled = s.settled ++ [(j, Outcome.timedOut)]) := by
  by_cases hmem : j ∈ s.timers
  · right
    refine ⟨hmem, ?_, ?_, ?_⟩ <;> simp only [BidiCore.fireTimeout, hmem, if_true]
  · left
    refine ⟨?_, ?_, ?_⟩ <;> simp only [BidiCore.fireTimeout, hmem, if_false]

/-- Invariant preservation when the tables do not change. -/
theorem tables_inv_of_unchanged (s t : BidiCore) (i : Nat)
    (hp : t.pendingCommands = s.pendingCommands) (ht : t.timers = s.timers)
    (hs : t.settled = s.settled)
    (hg : GoodTables s) (h : WaiterInv s i) : GoodTables t ∧ WaiterInv t i := by
  obtain ⟨hgp, hgt⟩ := hg
  obtain ⟨hle, h0, h1⟩ := h
  have hc : t.countSettled i = s.countSettled i := by
    simp [BidiCore.countSettled, hs]
  refine ⟨⟨?_, ?_⟩, ?_, ?_, ?_⟩
  · rw [hp]; exact hgp
  · rw [ht]; exact hgt
  · rw [hc]; exact hle
  · rw [hc, hp, ht]; exact h0
  · rw [hc, hp, ht]; exact h1

/-- Invariant preservation when some registered identifier `j` settles. -/
theorem tables_inv_of_settle (s t : BidiCore) (i j : Nat) (o : Outcome)
    (hmem : j ∈ s.pendingCommands ∨ j ∈ s.timers)
    (hp : t.pendingCommands = s.pendingCommands.erase j)
    (ht : t.timers = s.timers.erase j)
    (hs : t.settled = s.settled ++ [(j, o)])
    (hg : GoodTables s) (h : WaiterInv s i) : GoodTables t ∧ WaiterInv t i := by
  obtain ⟨hgp, hgt⟩ := hg
  obtain ⟨hle, h0, h1⟩ := h
  have hgood : GoodTables t :=
    ⟨by rw [hp]; exact hgp.erase j, by rw [ht]; exact hgt.erase j⟩
  by_cases hij : j = i
  · subst hij
    have hcnt0 : s.countSettled j = 0 := by
      rcases Nat.eq_zero_or_pos (s.countSettled j) with hz | hpos
      · exact hz
      · exfalso
        have he1 : s.countSettled j = 1 := by omega
        rcases hmem with hm | hm
        · exact (h1 he1).1 hm
        · exact (h1 he1).2 hm
    have hcnt : t.countSettled j = s.countSettled j + 1 := by
      simp [BidiCore.countSettled, hs, List.filter_append]
    refine ⟨hgood, ?_, ?_, ?_⟩
    · omega
    · intro hz; omega
    · intro _
      constructor
      · rw [hp]; exact hgp.not_mem_erase
      · rw [ht]; exact hgt.not_mem_erase
  · have hcnt : t.countSettled i = s.countSettled i := by
      have hb : ((j, o).1 == i) = false := by
        simp only [beq_eq_false_iff_ne, ne_eq]
        exact hij
      simp [BidiCore.countSettled, hs, List.filter_append, hb]
    have hine : i ≠ j := fun hh => hij hh.symm
    have hpm : i ∈ t.pendingCommands ↔ i ∈ s.pendingCommands := by
      rw [hp]; exact List.mem_erase_of_ne hine
    have htm : i ∈ t.timers ↔ i ∈ s.timers := by
      rw [ht]; exact List.mem_erase_of_ne hine
    refine ⟨hgood, ?_, ?_, ?_⟩
    · rw [hcnt]; exact hle
    · intro hz
      rw [hcnt] at hz
      obtain ⟨ha, hb⟩ := h0 hz
      exact ⟨hpm.mpr ha, htm.mpr hb⟩
    · intro hone
      rw [hcnt] at hone
      obtain ⟨ha, hb⟩ := h1 hone
      exact ⟨fun hc => ha (hpm.mp hc), fun hc => hb (htm.mp hc)⟩

/-- One event preserves table sanity and the per-command invariant. -/
theorem step_inv (s : BidiCore) (e : Ev) (i : Nat)
    (hg : GoodTables s) (h : WaiterInv s i) :
    GoodTables (s.step e) ∧ WaiterInv (s.step e) i := by
  cases e with
  | recv d =>
    rcases handleResponse_shape s d with ⟨hp, ht, hs⟩ | ⟨j, p, hd, hid, hmem, hp, ht, hs⟩
    · exact tables_inv_of_unchanged s _ i hp ht hs ⟨hg.1, hg.2⟩ h
    · exact tables_inv_of_settle s _ i j _ (Or.inl hmem) hp ht hs ⟨hg.1, hg.2⟩ h
  | timeout j =>
    rcases fireTimeout_shape s j with ⟨hp, ht, hs⟩ | ⟨hmem, hp, ht, hs⟩
    · exact tables_inv_of_unchanged s _ i hp ht hs ⟨hg.1, hg.2⟩ h
    · exact tables_inv_of_settle s _ i j _ (Or.inr hmem) hp ht hs ⟨hg.1, hg.2⟩ h

/-- Settlement counts never decrease along a step. -/
theorem step_count_mono (s : BidiCore) (e : Ev) (i : Nat) :
    s.countSettled i ≤ (s.step e).countSettled i := by
  cases e with
  | recv d =>
    rcases handleResponse_shape s d with ⟨-, -, hs⟩ | ⟨j, p, -, -, -, -, -, hs⟩
    · have : (s.step (Ev.recv d)).countSettled i = s.countSettled i := by
        simp [BidiCore.countSettled, BidiCore.step, hs]
      omega
    · exact countSettled_le_of_append s _ [(j, Outcome.resolved p)] hs i
  | timeout j =>
    rcases fireTimeout_shape s j with ⟨-, -, hs⟩ | ⟨-, -, -, hs⟩
    · have : (s.step (Ev.timeout j)).countSettled i = s.countSettled i := by
        simp [BidiCore.countSettled, BidiCore.step, hs]
      omega
    · exact countSettled_le_of_append s _ [(j, Outcome.timedOut)] hs i

/-- Once a command is settled, it stays settled exactly once. -/
theorem step_count_one (s : BidiCore) (e : Ev) (i : Nat)
    (hg : GoodTables s) (h : WaiterInv s i) (h1 : s.countSettled i = 1) :
    (s.step e).countSettled i = 1 := by
  have hmono := step_count_mono s e i
  have hinv := (step_inv s e i hg h).2.1
  omega

/-- A whole trace preserves table sanity and the per-command invariant. -/
theorem run_inv (evs : List Ev) : ∀ (s : BidiCore) (i : Nat),
    GoodTables s → WaiterInv s i →
    GoodTables (s.run evs) ∧ WaiterInv (s.run evs) i := by
  induction evs with
  | nil => intro s i hg h; exact ⟨hg, h⟩
  | cons e evs ih =>
    intro s i hg h
    obtain ⟨hg1, h1⟩ := step_inv s e i hg h
    exact ih (s.step e) i hg1 h1

/-- Once settled, a command stays settled exactly once along any trace. -/
theorem run_count_one (evs : List Ev) : ∀ (s : BidiCore) (i : Nat),
    GoodTables s → WaiterInv s i → s.countSettled i = 1 →
    (s.run evs).countSettled i = 1 := by
  induction evs with
  | nil => intro s i _ _ h1; exact h1
  | cons e evs ih =>
    intro s i hg h h1
    obtain ⟨hg1, hinv1⟩ := step_inv s e i hg h
    exact ih (s.step e) i hg1 hinv1 (step_count_one s e i hg h h1)

/-- A matching pending response removes the waiter and records its
resolution with that response payload. -/
theorem handleResponse_settles (s : BidiCore) (p : Payload) (i : Nat)
    (hid : truthyId p.id = some i) (hmem : i ∈ s.pendingCommands) :
    (s.handleResponse (some p)).settled = s.settled ++ [(i, Outcome.resolved p)] := by
  simp only [BidiCore.handleResponse, hid, hmem, if_true]

/-- A live timer firing removes the waiter and records its timeout. -/
theorem fireTimeout_settles (s : BidiCore) (i : Nat) (hmem : i ∈ s.timers) :
    (s.fireTimeout i).settled = s.settled ++ [(i, Outcome.timedOut)] := by
  simp only [BidiCore.fireTimeout, hmem, if_true]

/-- Processing a settling event leaves the command settled exactly once,
whether or not it was already settled. -/
theorem step_settler (s : BidiCore) (e : Ev) (i : Nat)
    (hg : GoodTables s) (h : WaiterInv s i) (hs : IsSettler i e) :
    (s.step e).countSettled i = 1 := by
  rcases Nat.eq_zero_or_pos (s.countSettled i) with h0 | hpos
  case inr =>
    have h1 : s.countSettled i = 1 := by have := h.1; omega
    exact step_count_one s e i hg h h1
  case inl =>
    obtain ⟨hip, hit⟩ := h.2.1 h0
    cases e with
    | recv d =>
      cases d with
      | none => exact absurd hs (by simp [IsSettler])
      | some p =>
        have hset := handleResponse_settles s p i hs hip
        have hcnt : (s.step (Ev.recv (some p))).countSettled i
            = s.countSettled i + 1 := by
          simp [BidiCore.countSettled, BidiCore.step, hset, List.filter_append]
        omega
    | timeout j =>
      have hj : j = i := hs
      subst hj
      have hset := fireTimeout_settles s j hit
      have hcnt : (s.step (Ev.timeout j)).countSettled j
          = s.countSettled j + 1 := by
        simp [BidiCore.countSettled, BidiCore.step, hset, List.filter_append]
      omega

/-- A trace holding a settling event for `i` leaves `i` settled exactly
once. -/
theorem run_settler (evs : List Ev) : ∀ (s : BidiCore) (i : Nat),
    GoodTables s → WaiterInv s i → (∃ e ∈ evs, IsSettler i e) →
    (s.run evs).countSettled i = 1 := by
  induction evs with
  | nil => intro s i _ _ hex; simp at hex
  | cons e evs ih =>
    intro s i hg h hex
    obtain ⟨hg1, h1⟩ := step_inv s e i hg h
    by_cases hse : IsSettler i e
    · exact run_count_one evs (s.step e) i hg1 h1 (step_settler s e i hg h hse)
    · rcases hex with ⟨f, hf, hsf⟩
      rcases List.mem_cons.mp hf with rfl | hfr
      · exact absurd hsf hse
      · exact ih (s.step e) i hg1 h1 ⟨f, hfr, hsf⟩

/-- Inversion of a successful `send`: the identifier is the incremented
counter, and its timer and pending entry are freshly registered while the
settlements are untouched. -/
theorem send_inv (s : BidiCore) (m : String) (i : Nat) (s1 : BidiCore)
    (h : s.send m = .ok (i, s1)) :
    i = s.id + 1 ∧
    s1.pendingCommands = s.pendingCommands ++ [s.id + 1] ∧
    s1.timers = s.timers ++ [s.id + 1] ∧
    s1.settled = s.settled := by
  unfold BidiCore.send BidiCore.sendAsync at h
  by_cases hc : (s.ws.isNone || !s.isConnected) = true
  · rw [if_pos hc] at h
    simp at h
  · rw [if_neg hc] at h
    simp at h
    obtain ⟨hi, hs1⟩ := h
    refine ⟨hi.symm, ?_, ?_, ?_⟩ <;> rw [← hs1]

/-- C1: a command sent on a connected session is settled exactly once.
After `send` registers the waiter and the 60-second timer
(`RESPONSE_TIMEOUT`) for the fresh identifier `i`, any trace of inbound
messages and timer firings (a) settles `i` at most once, (b) keeps the
waiter and timer registered as long as `i` is unsettled, (c) removes both
the moment `i` is settled — so a matching response and the timeout can
never both settle it — and (d) settles `i` exactly once as soon as the
trace contains a matching response or the firing of its timer, so under the
fairness assumption that an uncleared timer eventually fires, the waiter is
removed exactly once, never twice and never zero times. -/
theorem C1_waiter_removed_exactly_once (s s1 : BidiCore) (m : String) (i : Nat)
    (evs : List Ev)
    (hg : GoodTables s)
    (hpb : ∀ j ∈ s.pendingCommands, j ≤ s.id)
    (htb : ∀ j ∈ s.timers, j ≤ s.id)
    (hsb : ∀ e ∈ s.settled, e.1 ≤ s.id)
    (hsend : s.send m = .ok (i, s1)) :
    (s1.run evs).countSettled i ≤ 1 ∧
    ((s1.run evs).countSettled i = 0 →
      i ∈ (s1.run evs).pendingCommands ∧ i ∈ (s1.run evs).timers) ∧
    ((s1.run evs).countSettled i = 1 →
      i ∉ (s1.run evs).pendingCommands ∧ i ∉ (s1.run evs).timers) ∧
    ((∃ e ∈ evs, IsSettler i e) → (s1.run evs).countSettled i = 1) := by
  obtain ⟨hi, hp1, ht1, hs1⟩ := send_inv s m i s1 hsend
  subst hi
  have hpnotin : s.id + 1 ∉ s.pendingCommands := fun hmem => by
    have := hpb _ hmem; omega
  have htnotin : s.id + 1 ∉ s.timers := fun hmem => by
    have := htb _ hmem; omega
  have hg1 : GoodTables s1 := by
    constructor
    · rw [hp1]
      exact List.nodup_append.mpr ⟨hg.1, List.nodup_singleton _,
        fun x hx hy => by simp at hy; subst hy; exact hpnotin hx⟩
    · rw [ht1]
      exact List.nodup_append.mpr ⟨hg.2, List.nodup_singleton _,
        fun x hx hy => by simp at hy; subst hy; exact htnotin hx⟩
  have hc0 : s1.countSettled (s.id + 1) = 0 := by
    simp only [BidiCore.countSettled, hs1, List.length_eq_zero,
      List.filter_eq_nil_iff]
    intro e he
    have := hsb e he
    simp only [beq_iff_eq]
    omega
  have hw1 : WaiterInv s1 (s.id + 1) := by
    refine ⟨by omega, ?_, ?_⟩
    · intro _
      constructor
      · rw [hp1]; simp
      · rw [ht1]; simp
    · intro h1
      rw [hc0] at h1
      omega
  obtain ⟨hgr, hwr⟩ := run_inv evs s1 (s.id + 1) hg1 hw1
  exact ⟨hwr.1, hwr.2.1, hwr.2.2,
    fun hex => run_settler evs s1 (s.id + 1) hg1 hw1 hex⟩

/-- Matching response for the command of the C1 witness. -/
def c1resp : Payload := { id := some 1, isError := false, result := "session created" }

/-- State of the C1 witness right after `send` registered waiter and
timer. -/
def c1s1 : BidiCore :=
  { connState with
      id := 1
      clientEvents := [ClientEv.bidiCommand "session.new"]
      sentFrames := [(1, "session.new")]
      timers := [1]
      pendingCommands := [1] }

/-- Witness for C1: one command on a fresh connected instance, answered by
its matching response. -/
theorem C1_witness :
    (GoodTables connState ∧
      (∀ j ∈ connState.pendingCommands, j ≤ connState.id) ∧
      (∀ j ∈ connState.timers, j ≤ connState.id) ∧
      (∀ e ∈ connState.settled, e.1 ≤ connState.id) ∧
      connState.send "session.new" = .ok (1, c1s1)) ∧
    ((c1s1.run [Ev.recv (some c1resp)]).countSettled 1 ≤ 1 ∧
      ((c1s1.run [Ev.recv (some c1resp)]).countSettled 1 = 0 →
        1 ∈ (c1s1.run [Ev.recv (some c1resp)]).pendingCommands ∧
        1 ∈ (c1s1.run [Ev.recv (some c1resp)]).timers) ∧
      ((c1s1.run [Ev.recv (some c1resp)]).countSettled 1 = 1 →
        1 ∉ (c1s1.run [Ev.recv (some c1resp)]).pendingCommands ∧
        1 ∉ (c1s1.run [Ev.recv (some c1resp)]).timers) ∧
      ((∃ e ∈ [Ev.recv (some c1resp)], IsSettler 1 e) →
        (c1s1.run [Ev.recv (some c1resp)]).countSettled 1 = 1)) :=
  ⟨⟨⟨by decide, by decide⟩, by decide, by decide, by decide, rfl⟩,
    C1_waiter_removed_exactly_once connState c1s1 "session.new" 1
      [Ev.recv (some c1resp)] ⟨by decide, by decide⟩
      (by decide) (by decide) (by decide) rfl⟩
